import Mathlib

/-!
Shallow embedding of the `errors` package of kv-o/go-std
(`src/defs/functions.go`, the struct-based variant at lines 458-700),
together with theorems settling the claims about it.

Go's interface type `error` is modelled as `Option errors.Err`: `none` is the
nil interface value, `some e` a non-nil error value.  A non-nil error value is
either the package's structured `Error` struct (fields `addr`, `file`, `fn`,
`line`, `parent`, `text`) or an opaque external error exposing only a message
string.  The struct's `parent` field (itself of type `error`) is nil or
non-nil; the two cases are split into the constructors `root` and `child`, so
that the type is a plain (non-nested) inductive.

Call-site capture (`runtime.Caller`) is abstracted as an explicit `Ctx`
argument, following the spec's design note on call-site capture.

The two `for {}` loops in the source (`Has` and `Trace`) run a type switch on
an `error` value; a nil interface value matches neither `case Error:` nor
`case error:` in a Go type switch, so with a nil loop variable neither loop
body makes progress.  These loops are embedded with an explicit fuel
parameter: `none` as a result means the loop has not returned within `fuel`
iterations, and a result of `none` for every fuel is non-termination.
-/

namespace errors

/-- Call-site context captured by `runtime.Caller`: program counter, source
file, enclosing function name, line number. -/
structure Ctx where
  addr : Nat
  file : String
  fn : String
  line : Nat
deriving DecidableEq

/-- A non-nil value of Go interface type `error`.  `root ctx text` and
`child ctx text parent` are the structured `Error` struct with nil and
non-nil `parent` respectively; `external msg` is any other (opaque)
implementation of `error`, whose `Error()` method returns `msg`. -/
inductive Err where
  | root (ctx : Ctx) (text : String)
  | child (ctx : Ctx) (text : String) (parent : Err)
  | external (msg : String)
deriving DecidableEq

/-- The characters of `before` in `strings.Cut(s, ": ")`: everything up to
the first occurrence of the separator `": "`, or all of `s` if the separator
does not occur. -/
def cutChars : List Char → List Char
  | [] => []
  | c :: cs => if List.isPrefixOf [':', ' '] (c :: cs) then [] else c :: cutChars cs

/-- `before` component of `strings.Cut(s, ": ")`. -/
def cutBefore (s : String) : String := String.mk (cutChars s.data)

/-- The `Error() string` method of the struct `Error` (lines 488-508),
extended to external errors by their own `Error()` method (which is exactly
what the method's `case error:` branch invokes mid-loop).  The source's loop
walks `err` through successive parents; on a structured node with nil parent
it appends `Text()` and stops, on a non-nil parent it appends `Text() + ": "`
and continues, and on a non-`Error` node it appends that error's own
description and stops. -/
def Err.render : Err → String
  | .root _ t => t
  | .child _ t p => t ++ ": " ++ p.render
  | .external m => m

/-- `Text()` of a structured Error; for an external error, its `Error()`
message (the text a `case error:` branch of the source reads).  This is the
string each of `Join`'s loop iterations appends. -/
def nodeText : Err → String
  | .root _ t => t
  | .child _ t _ => t
  | .external m => m

/-- Leaf segment of an error value's description, as extracted by `Is` and by
`Has` for its target: `Text()` for a structured Error, the portion of the
message before the first `": "` for an external error. -/
def leafSeg : Err → String
  | .root _ t => t
  | .child _ t _ => t
  | .external m => cutBefore m

/-- The chain of an error value, leaf to root, as walked by the source's
loops: a structured node followed by its parent's chain, terminating at a
structured node with nil parent or at an opaque external node. -/
def chain : Err → List Err
  | .root c t => [.root c t]
  | .child c t p => .child c t p :: chain p
  | .external m => [.external m]

/-- `New(text, err)` (lines 607-626): builds the struct `Error` with the
given text, parent and captured call-site context. -/
def New (c : Ctx) (text : String) (err : Option Err) : Err :=
  match err with
  | none => .root c text
  | some p => .child c text p

/-- `Is(err, target)` (lines 580-605): nil checks, then the nested type
switches comparing leaf segments. -/
def Is (err target : Option Err) : Bool :=
  match err, target with
  | none, none => true
  | none, some _ => false
  | some _, none => false
  | some e, some t =>
    match e, t with
    | .root _ et, .root _ ut => et == ut
    | .root _ et, .child _ ut _ => et == ut
    | .root _ et, .external m => et == cutBefore m
    | .child _ et _, .root _ ut => et == ut
    | .child _ et _, .child _ ut _ => et == ut
    | .child _ et _, .external m => et == cutBefore m
    | .external m, .root _ ut => cutBefore m == ut
    | .external m, .child _ ut _ => cutBefore m == ut
    | .external m, .external m2 => cutBefore m == cutBefore m2

/-- The `for {}` loop of `Has` (lines 557-575), with fuel.  A nil `err`
matches neither `case Error:` nor `case error:` of the type switch, so the
loop body does nothing and the loop spins; this is modelled by recursing on
`none` until fuel runs out.  `none` as a result means the loop has not
returned within `fuel` iterations. -/
def hasLoop (fuel : Nat) (err : Option Err) (text : String) : Option Bool :=
  match fuel with
  | 0 => none
  | fuel + 1 =>
    match err with
    | none => hasLoop fuel none text
    | some (.root _ t) => if t == text then some true else some false
    | some (.child _ t p) => if t == text then some true else hasLoop fuel (some p) text
    | some (.external m) => if cutBefore m == text then some true else some false

/-- `Has(err, target)` (lines 544-576): nil checks, extraction of the
target's leaf text by type switch, then the loop over `err`'s chain. -/
def Has (fuel : Nat) (err target : Option Err) : Option Bool :=
  match err, target with
  | none, none => some true
  | some _, none => some false
  | _, some t =>
    hasLoop fuel err
      (match t with
       | .root _ tt => tt
       | .child _ tt _ => tt
       | .external m => cutBefore m)

/-- The accumulation loop of `Join` (lines 636-652): skips nil entries,
inserts `", "` before every present entry except the first, and appends
`Text()` for a structured Error and `Error()` for any other error. -/
def joinLoop : List (Option Err) → Bool → String → String
  | [], _, text => text
  | none :: rest, first, text => joinLoop rest first text
  | some e :: rest, first, text =>
    joinLoop rest false
      ((if first then text else text ++ ", ") ++
        (match e with
         | .root _ t => t
         | .child _ t _ => t
         | .external m => m))

/-- `Join(errs...)` (lines 635-667): returns nil when the accumulated text is
empty, otherwise a new structured Error with that text, nil parent, and the
caller's context. -/
def Join (c : Ctx) (errs : List (Option Err)) : Option Err :=
  let text := joinLoop errs true ""
  if text = "" then none else some (.root c text)

/-- The `raise` method (lines 518-528): copies the receiver, overwrites the
copy's context fields with the freshly captured context, and returns the
copy.  The receiver is a value receiver, so the original is untouched; this
is inherent in the pure embedding. -/
def Err.raise (e : Err) (c : Ctx) : Err :=
  match e with
  | .root _ t => .root c t
  | .child _ t p => .child c t p
  | .external m => .external m

/-- `Raise(err)` (lines 669-675): re-stamps the context when the dynamic type
is the struct `Error`, and otherwise returns `err` unchanged (this covers
both nil and external errors, since the type switch has only `case Error:`). -/
def Raise (c : Ctx) (err : Option Err) : Option Err :=
  match err with
  | some (.root c0 t) => some (Err.raise (.root c0 t) c)
  | some (.child c0 t p) => some (Err.raise (.child c0 t p) c)
  | _ => err

/-- The lines a single chain node registers as deferred writes in `Trace`'s
loop (lines 684-699), in registration order.  A structured node registers its
`file:line`, text and `func(...)` lines; an opaque external node registers
its message line and the `no-context error:` marker. -/
def nodeRegs : Err → List String
  | .root c t => ["\t" ++ c.file ++ ":" ++ toString c.line, "\t" ++ t, c.fn ++ "(...)"]
  | .child c t _ => ["\t" ++ c.file ++ ":" ++ toString c.line, "\t" ++ t, c.fn ++ "(...)"]
  | .external m => ["\t" ++ m, "no-context error:"]

/-- The `for {}` loop of `Trace` (lines 684-699), with fuel.  `defs` is the
list of deferred writes registered so far, in registration order; on return
the deferred writes run last-registered-first, so the emitted lines are
`defs.reverse`.  As in `hasLoop`, a nil `err` matches no case of the type
switch and the loop spins. -/
def traceLoop (fuel : Nat) (err : Option Err) (defs : List String) : Option (List String) :=
  match fuel with
  | 0 => none
  | fuel + 1 =>
    match err with
    | none => traceLoop fuel none defs
    | some (.root c t) =>
      some ((defs ++ ["\t" ++ c.file ++ ":" ++ toString c.line, "\t" ++ t, c.fn ++ "(...)"]).reverse)
    | some (.child c t p) =>
      traceLoop fuel (some p)
        (defs ++ ["\t" ++ c.file ++ ":" ++ toString c.line, "\t" ++ t, c.fn ++ "(...)"])
    | some (.external m) =>
      some ((defs ++ ["\t" ++ m, "no-context error:"]).reverse)

/-- `Trace(w, err)` (lines 679-700): the header line followed, on return of
the loop, by the flushed deferred writes.  The result is the full sequence of
lines written to the sink; `none` means the loop has not returned within
`fuel` iterations. -/
def Trace (err : Option Err) (fuel : Nat) : Option (List String) :=
  (traceLoop fuel err []).map (fun out => "Traceback (most recent call first):" :: out)

/-- Spec-side: `", "`-continuation of a list of pieces (each piece preceded
by the separator). -/
def contText : List String → String
  | [] => ""
  | p :: ps => ", " ++ p ++ contText ps

/-- Spec-side: concatenation of pieces separated by `", "`, no trailing
separator. -/
def sepText : List String → String
  | [] => ""
  | p :: ps => p ++ contText ps

/-- Spec-side: concatenation of pieces separated by `": "`, no trailing
separator. -/
def sepColon : List String → String
  | [] => ""
  | [t] => t
  | t :: ts => t ++ ": " ++ sepColon ts

/-- Spec-side: the contribution of each present entry of `errs`, in order. -/
def presentPieces (errs : List (Option Err)) : List String :=
  (errs.filterMap id).map nodeText

/-- Context fields of a structured Error (absent for an external error). -/
def ctxOf : Err → Option Ctx
  | .root c _ => some c
  | .child c _ _ => some c
  | .external _ => none

/-- `Parent()` of a structured Error. -/
def parentOf : Err → Option Err
  | .root _ _ => none
  | .child _ _ p => some p
  | .external _ => none

/-- A fixed context for concrete instances. -/
def ctx0 : Ctx := ⟨0, "main.go", "main.main", 1⟩

theorem chain_ne_nil (e : Err) : chain e ≠ [] := by
  cases e <;> simp [chain]

theorem hasLoop_none (fuel : Nat) (text : String) : hasLoop fuel none text = none := by
  induction fuel with
  | zero => rfl
  | succ n ih => simpa [hasLoop] using ih

theorem traceLoop_none (fuel : Nat) (defs : List String) :
    traceLoop fuel none defs = none := by
  induction fuel with
  | zero => rfl
  | succ n ih => simpa [traceLoop] using ih

theorem hasLoop_spec (fuel : Nat) :
    ∀ (a : Err) (text : String), (chain a).length ≤ fuel →
      hasLoop fuel (some a) text = some ((chain a).any (fun n => leafSeg n == text)) := by
  induction fuel with
  | zero =>
    intro a text h
    exact absurd (List.eq_nil_of_length_eq_zero (Nat.le_zero.mp h)) (chain_ne_nil a)
  | succ n ih =>
    intro a text h
    cases a with
    | root c t =>
      cases ht : (t == text) <;> simp [hasLoop, chain, leafSeg, ht]
    | child c t p =>
      cases ht : (t == text) with
      | true => simp [hasLoop, chain, leafSeg, ht]
      | false =>
        have hp : (chain p).length ≤ n := by
          have := h
          simp [chain] at this
          omega
        simp [hasLoop, chain, leafSeg, ht, ih p text hp]
    | external m =>
      cases hm : (cutBefore m == text) <;> simp [hasLoop, chain, leafSeg, hm]

theorem joinLoop_cons_some (e : Err) (rest : List (Option Err)) (first : Bool) (acc : String) :
    joinLoop (some e :: rest) first acc =
      joinLoop rest false ((if first then acc else acc ++ ", ") ++ nodeText e) := by
  cases e <;> rfl

theorem presentPieces_cons_none (rest : List (Option Err)) :
    presentPieces (none :: rest) = presentPieces rest := by
  simp [presentPieces]

theorem presentPieces_cons_some (e : Err) (rest : List (Option Err)) :
    presentPieces (some e :: rest) = nodeText e :: presentPieces rest := by
  simp [presentPieces]

theorem joinLoop_cont (errs : List (Option Err)) :
    ∀ acc, joinLoop errs false acc = acc ++ contText (presentPieces errs) := by
  induction errs with
  | nil => intro acc; simp [joinLoop, presentPieces, contText, String.append_empty]
  | cons hd rest ih =>
    intro acc
    cases hd with
    | none => simp [joinLoop, presentPieces_cons_none, ih]
    | some e =>
      rw [joinLoop_cons_some, presentPieces_cons_some]
      simp only [if_neg Bool.false_ne_true]
      rw [ih]
      simp [contText, String.append_assoc]

theorem joinLoop_sep (errs : List (Option Err)) :
    ∀ acc, joinLoop errs true acc = acc ++ sepText (presentPieces errs) := by
  induction errs with
  | nil => intro acc; simp [joinLoop, presentPieces, sepText, String.append_empty]
  | cons hd rest ih =>
    intro acc
    cases hd with
    | none => simp [joinLoop, presentPieces_cons_none, ih]
    | some e =>
      rw [joinLoop_cons_some, presentPieces_cons_some]
      simp only [if_pos rfl]
      rw [joinLoop_cont]
      simp [sepText, String.append_assoc]

theorem Join_closed (c : Ctx) (errs : List (Option Err)) :
    Join c errs =
      if sepText (presentPieces errs) = "" then none
      else some (.root c (sepText (presentPieces errs))) := by
  unfold Join
  rw [joinLoop_sep, String.empty_append]

theorem traceLoop_spec (fuel : Nat) :
    ∀ (e : Err) (defs : List String), (chain e).length ≤ fuel →
      traceLoop fuel (some e) defs =
        some ((defs ++ ((chain e).map nodeRegs).flatten).reverse) := by
  induction fuel with
  | zero =>
    intro e defs h
    exact absurd (List.eq_nil_of_length_eq_zero (Nat.le_zero.mp h)) (chain_ne_nil e)
  | succ n ih =>
    intro e defs h
    cases e with
    | root c t => simp [traceLoop, chain, nodeRegs]
    | external m => simp [traceLoop, chain, nodeRegs]
    | child c t p =>
      have hp : (chain p).length ≤ n := by
        have := h
        simp [chain] at this
        omega
      simp [traceLoop, chain, nodeRegs, ih p _ hp, List.append_assoc]

theorem sepColon_cons (t : String) (ts : List String) (h : ts ≠ []) :
    sepColon (t :: ts) = t ++ ": " ++ sepColon ts := by
  cases ts with
  | nil => exact absurd rfl h
  | cons a l => rfl

theorem render_chain (e : Err) : e.render = sepColon ((chain e).map nodeText) := by
  induction e with
  | root c t => rfl
  | external m => rfl
  | child c t p ih =>
    have hne : (chain p).map nodeText ≠ [] := by
      simp [chain_ne_nil p]
    rw [Err.render, chain, List.map_cons, nodeText, sepColon_cons _ _ hne, ih]

/-- C6: the rendered description of an error is the leaf-to-root
concatenation of each chain node's text joined by `": "`, terminating at the
node with no parent; an opaque external chain link contributes its own full
description and traversal stops; in particular the three-node chain
`leaf / mid / root` renders as `"leaf: mid: root"`. -/
theorem render_leaf_to_root :
    (∀ e : Err, e.render = sepColon ((chain e).map nodeText)) ∧
    (∀ (c : Ctx) (t m : String), (Err.child c t (.external m)).render = t ++ ": " ++ m) ∧
    (New ctx0 "leaf" (some (New ctx0 "mid" (some (New ctx0 "root" none))))).render
      = "leaf: mid: root" := by
  refine ⟨render_chain, fun c t m => rfl, by decide⟩

/-- C7: `Is` is true when both sides are absent, false when exactly one is
absent, and otherwise compares exactly the leaf segments of the two
descriptions; hence it is reflexive, and structured Errors with equal leaf
text but different parents, contexts or chain depth are equal under it. -/
theorem Is_leaf_segment_equality :
    (Is none none = true) ∧
    (∀ e : Err, Is (some e) none = false) ∧
    (∀ e : Err, Is none (some e) = false) ∧
    (∀ a b : Err, Is (some a) (some b) = (leafSeg a == leafSeg b)) ∧
    (∀ x : Option Err, Is x x = true) ∧
    (∀ (c c2 : Ctx) (t : String) (p p2 : Err),
      Is (some (.child c t p)) (some (.child c2 t p2)) = true) ∧
    (∀ (c c2 : Ctx) (t : String) (p : Err),
      Is (some (.child c t p)) (some (.root c2 t)) = true) := by
  have key : ∀ a b : Err, Is (some a) (some b) = (leafSeg a == leafSeg b) := by
    intro a b
    cases a <;> cases b <;> simp [Is, leafSeg]
  refine ⟨rfl, fun e => rfl, fun e => rfl, key, ?_, ?_, ?_⟩
  · intro x
    cases x with
    | none => rfl
    | some a => rw [key]; exact beq_self_eq_true _
  · intro c c2 t p p2
    rw [key]
    simp [leafSeg]
  · intro c c2 t p
    rw [key]
    simp [leafSeg]


/-- C2: for a present `err` and any `target`, `Has` returns false when the
target is absent and true when both are absent; for a present target it
extracts the target's leaf text (`Text()` for a structured Error, the cut
before the first `": "` for an external error), walks `err`'s chain leaf to
root, and returns whether any node's leaf text matches, the terminal opaque
node being tested exactly once.  The fuel bound `(chain a).length ≤ fuel`
expresses that the loop returns within chain-length iterations. -/
theorem Has_walks_chain (a b : Err) (fuel : Nat) (h : (chain a).length ≤ fuel) :
    Has fuel (some a) none = some false ∧
    Has fuel none none = some true ∧
    Has fuel (some a) (some b) = some ((chain a).any (fun n => leafSeg n == leafSeg b)) := by
  refine ⟨rfl, rfl, ?_⟩
  have hb : Has fuel (some a) (some b) = hasLoop fuel (some a) (leafSeg b) := by
    cases b <;> rfl
  rw [hb, hasLoop_spec fuel a (leafSeg b) h]

/-- Witness for C2 at a concrete two-node chain and target. -/
theorem Has_walks_chain_witness :
    (chain (Err.child ctx0 "x" (.root ctx0 "y"))).length ≤ 5 ∧
    (Has 5 (some (Err.child ctx0 "x" (.root ctx0 "y"))) none = some false ∧
     Has 5 none none = some true ∧
     Has 5 (some (Err.child ctx0 "x" (.root ctx0 "y"))) (some (Err.root ctx0 "y"))
       = some ((chain (Err.child ctx0 "x" (.root ctx0 "y"))).any
           (fun n => leafSeg n == leafSeg (Err.root ctx0 "y")))) :=
  ⟨by decide, Has_walks_chain (Err.child ctx0 "x" (.root ctx0 "y")) (Err.root ctx0 "y") 5 (by decide)⟩

/-- C3: refutation of totality at the failing input.  With a nil `err` and a
present `target`, the type switch in `Has`'s `for {}` loop matches no case,
so the loop never returns: no amount of fuel makes the embedded loop produce
a boolean. -/
theorem Has_absent_present_never_returns :
    ∀ (fuel : Nat) (b : Err), Has fuel none (some b) = none := by
  intro fuel b
  have hb : Has fuel none (some b) = hasLoop fuel none (leafSeg b) := by
    cases b <;> rfl
  rw [hb, hasLoop_none]

/-- C4: refutation at the failing input.  `Trace` with an absent error prints
the header and then enters the `for {}` loop with a nil `err`; the type
switch matches no case, so the loop never returns and `Trace` never
completes, for any fuel. -/
theorem Trace_absent_never_returns : ∀ fuel : Nat, Trace none fuel = none := by
  intro fuel
  unfold Trace
  rw [traceLoop_none]
  rfl


theorem append_sep_ne_empty (x y : String) : x ++ ", " ++ y ≠ "" := by
  intro hc
  have hl := congrArg String.length hc
  simp [String.length_append] at hl
  exact absurd hl.1.2 (by decide)

/-- C5: for a present chain, `Trace` emits the header and then one block per
chain node, in root-first leaf-last order (the reverse of the leaf-to-root
traversal, because the deferred writes flush last-registered-first); a chain
terminating in an opaque external error yields exactly one `no-context
error:` block holding only the message text, with no file/line/function
lines for that node. -/
theorem Trace_blocks_root_first (e : Err) (c : Ctx) (t m : String) (fuel : Nat)
    (h : (chain e).length ≤ fuel) :
    Trace (some e) fuel =
      some ("Traceback (most recent call first):" ::
        (((chain e).map (fun n => (nodeRegs n).reverse)).reverse).flatten) ∧
    Trace (some (.external m)) 1 =
      some ["Traceback (most recent call first):", "no-context error:", "\t" ++ m] ∧
    Trace (some (.child c t (.external m))) 2 =
      some ["Traceback (most recent call first):", "no-context error:", "\t" ++ m,
            c.fn ++ "(...)", "\t" ++ t, "\t" ++ c.file ++ ":" ++ toString c.line] := by
  refine ⟨?_, rfl, rfl⟩
  unfold Trace
  rw [traceLoop_spec fuel e [] h]
  simp [List.reverse_flatten, List.map_map, Function.comp_def]

/-- Witness for C5 at a concrete chain ending in an opaque error. -/
theorem Trace_blocks_root_first_witness :
    (chain (Err.child ctx0 "leaf" (.external "oops"))).length ≤ 5 ∧
    (Trace (some (Err.child ctx0 "leaf" (.external "oops"))) 5 =
      some ("Traceback (most recent call first):" ::
        (((chain (Err.child ctx0 "leaf" (.external "oops"))).map
            (fun n => (nodeRegs n).reverse)).reverse).flatten) ∧
     Trace (some (.external "boom")) 1 =
      some ["Traceback (most recent call first):", "no-context error:", "\t" ++ "boom"] ∧
     Trace (some (.child ctx0 "t" (.external "boom"))) 2 =
      some ["Traceback (most recent call first):", "no-context error:", "\t" ++ "boom",
            ctx0.fn ++ "(...)", "\t" ++ "t", "\t" ++ ctx0.file ++ ":" ++ toString ctx0.line]) :=
  ⟨by decide, Trace_blocks_root_first (Err.child ctx0 "leaf" (.external "oops")) ctx0 "t" "boom" 5 (by decide)⟩


/-- C1 counterexample: at concrete inputs the claim as stated fails twice
over.  First, for `a = mid(parent root)` and `b`, the rendered text of
`Join(a, b)` is `"mid, b"` — built from leaf texts — and not
`render(a) + ", " + render(b) = "mid: root, b"`.  Second, `Join` of a single
present error constructed with empty text returns absent, not a new Error. -/
theorem Join_render_claim_cex :
    ((Join ctx0 [some (Err.child ctx0 "mid" (.root ctx0 "root")), some (Err.root ctx0 "b")]).map
        Err.render ≠
      some ((Err.child ctx0 "mid" (.root ctx0 "root")).render ++ ", " ++
        (Err.root ctx0 "b").render)) ∧
    Join ctx0 [some (Err.root ctx0 "")] = none := by
  refine ⟨by decide, by decide⟩

/-- C1 amended: `Join` discards absent entries and concatenates, separated by
`", "` in input order with no trailing separator, the leaf text (`Text()`) of
each present structured error and the full message of each present opaque
error — not the full rendered description; the result is absent exactly when
this concatenated text is empty (in particular when all entries are absent),
and otherwise is a new Error with that text and absent parent; hence for
present `a` and `b` the rendered text of `Join(a, b)` is
`leaf(a) + ", " + leaf(b)`. -/
theorem Join_uses_leaf_text :
    (∀ (c : Ctx) (errs : List (Option Err)),
      Join c errs =
        if sepText (presentPieces errs) = "" then none
        else some (.root c (sepText (presentPieces errs)))) ∧
    (∀ (c : Ctx) (a b : Err),
      (Join c [some a, some b]).map Err.render
        = some (nodeText a ++ ", " ++ nodeText b)) := by
  refine ⟨Join_closed, ?_⟩
  intro c a b
  rw [Join_closed]
  have hp : presentPieces [some a, some b] = [nodeText a, nodeText b] := by
    simp [presentPieces]
  rw [hp]
  have hs : sepText [nodeText a, nodeText b] = nodeText a ++ ", " ++ nodeText b := by
    simp [sepText, contText, String.append_empty, String.append_assoc]
  rw [hs, if_neg (append_sep_ne_empty _ _)]
  rfl

/-- C9: `Join` decides absence on the emptiness of the concatenated text, not
on whether a present input existed: a single present structured error with
empty text yields an absent result, and in general the result is absent iff
the concatenated text is empty. -/
theorem Join_absent_iff_empty_text :
    Join ctx0 [some (Err.root ctx0 "")] = none ∧
    (∀ (c : Ctx) (errs : List (Option Err)),
      (Join c errs = none ↔ sepText (presentPieces errs) = "")) := by
  refine ⟨by decide, ?_⟩
  intro c errs
  rw [Join_closed]
  split <;> simp_all

/-- C8: `Raise` of a structured Error returns a new Error with identical text
and parent and the freshly captured context; the argument's own fields are
untouched (the method's receiver is a value copy, which the pure embedding
renders as the constructors of the input still carrying their original
context). -/
theorem Raise_updates_context_only (c0 c1 : Ctx) (t : String) (p : Option Err) :
    Raise c1 (some (New c0 t p)) = some (New c1 t p) ∧
    nodeText (New c1 t p) = nodeText (New c0 t p) ∧
    parentOf (New c1 t p) = parentOf (New c0 t p) ∧
    ctxOf (New c1 t p) = some c1 ∧
    ctxOf (New c0 t p) = some c0 := by
  cases p <;> simp [Raise, New, Err.raise, nodeText, parentOf, ctxOf]

/-- C10: `Raise` is the identity on non-structured inputs: an opaque external
error is returned unchanged with no context re-stamping, and an absent error
stays absent. -/
theorem Raise_id_on_external :
    (∀ (c : Ctx) (m : String), Raise c (some (.external m)) = some (.external m)) ∧
    (∀ c : Ctx, Raise c none = none) :=
  ⟨fun _ _ => rfl, fun _ => rfl⟩

end errors
